import Mathlib

/-!
Shallow embedding of the Mandelbrot-set renderer core of the `rcurves`
repository (`src/mandelbrot_curve.rs`), together with proofs of the
specification claims about it.

Modelling conventions:
* `f64` / `f32` values are idealized as exact rationals (`ℚ`); every
  floating-point constant of the source is an exact decimal and is kept
  exactly.  Quantities produced through `log2` or `sin` (the smooth
  escape-time adjustment and the interpolated pixel colors) live in `ℝ`.
* `i32` values are modelled as `ℤ`, `usize` as `ℕ`.
* Rust's `f32::round` rounds half away from zero; `roundAway` reproduces it.
* The data-parallel fold/reduce of the iteration pass is modelled as a
  sequential left fold over the pixel indices (its determinism with respect
  to partitioning is exactly the content of the `ParIterResult.combine`
  associativity/commutativity claim).
-/

namespace RCurves

/-- Screen-space vector (`ggez::glam::Vec2`, `f32` components). -/
structure Vec2 where
  x : ℚ
  y : ℚ
deriving DecidableEq

/-- Integer screen vector (`ggez::glam::i32::IVec2`). -/
structure IVec2 where
  x : ℤ
  y : ℤ
deriving DecidableEq

/-- Plane-space vector (`ggez::glam::DVec2`, `f64` components). -/
structure DVec2 where
  x : ℚ
  y : ℚ
deriving DecidableEq

/-- Rust `f32::round` / `f64::round`: round half away from zero. -/
def roundAway (q : ℚ) : ℤ :=
  if 0 ≤ q then ⌊q + 1 / 2⌋ else -⌊-q + 1 / 2⌋

/-- `ViewBox`: the screen ↔ complex-plane mapping of the current frame.
`box_screen_scale` models the source field `box_screen_ratio`
(`box_size.x / screen_size.x`, plane units per pixel). -/
structure ViewBox where
  screen_min_i : IVec2
  screen_center : Vec2
  screen_size_i : IVec2
  box_center : DVec2
  box_size : DVec2
  box_screen_scale : ℚ
  pixel_count : ℕ
deriving DecidableEq

namespace ViewBox

/-- `ViewBox::from_center_size`. -/
def from_center_size (screen_center screen_size : Vec2) (box_center box_size : DVec2) :
    ViewBox :=
  let screen_size_i : IVec2 := ⟨roundAway screen_size.x, roundAway screen_size.y⟩
  { screen_min_i := ⟨roundAway (screen_center.x - screen_size.x / 2),
                     roundAway (screen_center.y - screen_size.y / 2)⟩
    screen_center := screen_center
    screen_size_i := screen_size_i
    box_center := box_center
    box_size := box_size
    box_screen_scale := box_size.x / screen_size.x
    pixel_count := (screen_size_i.x * screen_size_i.y).toNat }

/-- `ViewBox::zero`. -/
def zero : ViewBox := from_center_size ⟨0, 0⟩ ⟨0, 0⟩ ⟨0, 0⟩ ⟨0, 0⟩

/-- `ViewBox::mandel_point`: screen pixel to plane point; the single
horizontal scale is used on both axes. -/
def mandel_point (vb : ViewBox) (screen_pixel_x screen_pixel_y : ℤ) : DVec2 :=
  ⟨((screen_pixel_x : ℚ) - vb.screen_center.x) * vb.box_screen_scale + vb.box_center.x,
   ((screen_pixel_y : ℚ) - vb.screen_center.y) * vb.box_screen_scale + vb.box_center.y⟩

/-- `ViewBox::mandel_point_from_index`: recover the pixel offset from a flat
buffer index (row stride `screen_size_i.x`), then map to the plane. -/
def mandel_point_from_index (vb : ViewBox) (pixel_index : ℕ) : DVec2 :=
  let screen_shift_x := (pixel_index : ℤ) % vb.screen_size_i.x
  let screen_shift_y := (pixel_index : ℤ) / vb.screen_size_i.x
  vb.mandel_point (vb.screen_min_i.x + screen_shift_x) (vb.screen_min_i.y + screen_shift_y)

/-- `ViewBox::screen_pixel`: inverse map, plane point to screen coordinates. -/
def screen_pixel (vb : ViewBox) (mandel_pt : DVec2) : Vec2 :=
  ⟨(mandel_pt.x - vb.box_center.x) / vb.box_screen_scale + vb.screen_center.x,
   (mandel_pt.y - vb.box_center.y) / vb.box_screen_scale + vb.screen_center.y⟩

/-- `ViewBox::size_changed`. -/
def size_changed (vb other : ViewBox) : Bool :=
  decide (vb.screen_size_i ≠ other.screen_size_i)

end ViewBox

/-! ## Algorithm constants of the source module -/

/-- Cycle-detection epsilon (`EPSILON = 1e-17`). -/
def EPSILON : ℚ := 1e-17

/-- `DEFAULT_MAX_ITERATIONS = 100`. -/
def DEFAULT_MAX_ITERATIONS : ℕ := 100

/-- `ESCAPE_RADIUS = 2.`. -/
def ESCAPE_RADIUS : ℚ := 2

/-- `INCREASE_MAX_PERIODICITY_AFTER_CYCLES = 10` (`i32`). -/
def INCREASE_MAX_PERIODICITY_AFTER_CYCLES : ℤ := 10

/-- Per-point outcome of the escape-time iteration
(`struct IterationResult`). -/
structure IterationResult where
  iterations : ℕ
  smooth : ℝ
  computed : ℕ

/-- A known circle fully inside the Mandelbrot set
(`struct KnownCircle`). -/
structure KnownCircle where
  center : DVec2
  radius2 : ℚ
  x_limit : ℚ

namespace KnownCircle

/-- `KnownCircle::is_part`. -/
def is_part (k : KnownCircle) (c : DVec2) : Bool :=
  let dx := c.x - k.center.x
  let dy := c.y - k.center.y
  decide (dx * dx + dy * dy < k.radius2 ∧ c.x < k.x_limit)

end KnownCircle

/-- The static `KNOW_CIRCLES` table (the three uncommented entries). -/
def KNOW_CIRCLES : List KnownCircle :=
  [⟨⟨-0.125, 0.744⟩, 0.092 * 0.092, 2⟩,
   ⟨⟨-0.125, -0.744⟩, 0.092 * 0.092, 2⟩,
   ⟨⟨-1.308, 0⟩, 0.058 * 0.058, 2⟩]

/-- `KnownCircle::is_known_member`: membership in any known circle. -/
def is_known_member (c : DVec2) : Bool :=
  KNOW_CIRCLES.any (fun circle => circle.is_part c)

/-! ## Escape-time iterator (`MandelIterator`) -/

/-- `struct MandelIterator`. -/
structure MandelIterator where
  max_iterations : ℕ
  escape_radius2 : ℚ

namespace MandelIterator

/-- `MandelIterator::is_part_of_bulb_or_main_cardioid` (takes the cached
`y2 = c.y * c.y`). -/
def is_part_of_bulb_or_main_cardioid (c : DVec2) (y2 : ℚ) : Bool :=
  let x_plus_1 := c.x + 1
  if x_plus_1 * x_plus_1 + y2 < 0.0625 then
    true
  else
    let x_minus_quarter := c.x - 0.25
    let q := x_minus_quarter * x_minus_quarter + y2
    decide (q * (q + x_minus_quarter) < y2 * 0.25)

/-- The mutable locals of the `while` loop of
`MandelIterator::iter_to_divergence`. -/
structure LoopState where
  x : ℚ
  y : ℚ
  x2 : ℚ
  y2 : ℚ
  xy : ℚ
  xh : ℚ
  yh : ℚ
  iterations_since_periodicity_refresh : ℤ
  max_periodicity : ℤ
  refresh_periodicity_cycles : ℤ
  i : ℕ
deriving DecidableEq

/-- How the `while` loop of `iter_to_divergence` ends. -/
inductive LoopOutcome where
  /-- Early return on cycle detection (records the loop counter at exit). -/
  | cycle (i : ℕ)
  /-- Normal exit with the iteration budget exhausted. -/
  | exhausted (i : ℕ)
  /-- Normal exit with `x2 + y2` (recorded) at or past the escape radius
  before the budget ran out. -/
  | escaped (i : ℕ) (m : ℚ)
deriving DecidableEq

/-- The checkpoint-cadence update performed when a periodicity refresh
happens: `if refresh_periodicity_cycles == INCREASE_MAX_PERIODICITY_AFTER_CYCLES
{ refresh_periodicity_cycles = 0; max_periodicity *= 2 }
refresh_periodicity_cycles += 1` acting on
`(max_periodicity, refresh_periodicity_cycles)`. -/
def refreshUpdate (p : ℤ × ℤ) : ℤ × ℤ :=
  if p.2 = INCREASE_MAX_PERIODICITY_AFTER_CYCLES then (p.1 * 2, 1) else (p.1, p.2 + 1)

/-- The `while` loop of `iter_to_divergence`, one constructor call per pass
through the body.  `f64::abs(d) < EPSILON` is written as the equivalent
two-sided bound `d < EPSILON ∧ -d < EPSILON` (see `cycle_guard_iff_abs`);
the periodicity-refresh branch inlines `refreshUpdate`
(see `refresh_branch_eq_refreshUpdate`). -/
def loopGo (er2 cx cy : ℚ) (maxIter : ℕ) (s : LoopState) : LoopOutcome :=
  if hc : s.i < maxIter ∧ s.x2 + s.y2 < er2 then
    let x := s.x2 - s.y2 + cx
    let y := s.xy + s.xy + cy
    let x2 := x * x
    let y2 := y * y
    let xy := x * y
    if (x - s.xh < EPSILON ∧ s.xh - x < EPSILON) ∧
       (y - s.yh < EPSILON ∧ s.yh - y < EPSILON) then
      .cycle s.i
    else if s.iterations_since_periodicity_refresh = s.max_periodicity then
      if s.refresh_periodicity_cycles = INCREASE_MAX_PERIODICITY_AFTER_CYCLES then
        loopGo er2 cx cy maxIter
          ⟨x, y, x2, y2, xy, x, y, 0 + 1, s.max_periodicity * 2, 1, s.i + 1⟩
      else
        loopGo er2 cx cy maxIter
          ⟨x, y, x2, y2, xy, x, y, 0 + 1, s.max_periodicity,
           s.refresh_periodicity_cycles + 1, s.i + 1⟩
    else
      loopGo er2 cx cy maxIter
        ⟨x, y, x2, y2, xy, s.xh, s.yh, s.iterations_since_periodicity_refresh + 1,
         s.max_periodicity, s.refresh_periodicity_cycles, s.i + 1⟩
  else
    if maxIter ≤ s.i then .exhausted s.i else .escaped s.i (s.x2 + s.y2)
termination_by maxIter - s.i
decreasing_by
  all_goals simp_wf
  all_goals omega

/-- Loop-entry state: locals initialized from `c` before the `while` loop. -/
def initState (c : DVec2) : LoopState :=
  ⟨c.x, c.y, c.x * c.x, c.y * c.y, c.x * c.y, 0, 0, 0, 3, 0, 0⟩

/-- Smooth-coloring exponent `nu = log2(log2(x2 + y2) / 2.)`. -/
noncomputable def nu (m : ℚ) : ℝ :=
  Real.logb 2 (Real.logb 2 (m : ℝ) / 2)

/-- Maps the loop exit to the returned `IterationResult`:
cycle detection and budget exhaustion are reported as non-escaping
(`iterations = max_iterations`, `smooth = 0`); escape at step `i` carries the
clamped smooth adjustment `f64::max(0., 1. - nu)`. -/
noncomputable def result_of_outcome (maxIter : ℕ) : LoopOutcome → IterationResult
  | .cycle _ => ⟨maxIter, 0, 0⟩
  | .exhausted i => ⟨maxIter, 0, i⟩
  | .escaped i m => ⟨i, max 0 (1 - nu m), i⟩

/-- `MandelIterator::iter_to_divergence`. -/
noncomputable def iter_to_divergence (it : MandelIterator) (c : DVec2) : IterationResult :=
  if is_known_member c then
    ⟨it.max_iterations, 0, 0⟩
  else
    let y2 := c.y * c.y
    if is_part_of_bulb_or_main_cardioid c y2 then
      ⟨it.max_iterations, 0, 0⟩
    else
      result_of_outcome it.max_iterations
        (loopGo it.escape_radius2 c.x c.y it.max_iterations (initState c))

/-- The program path on which a point escapes: no known-region shortcut
applies and the loop exits past the escape radius within the budget. -/
def Escapes (it : MandelIterator) (c : DVec2) : Prop :=
  is_known_member c = false ∧
  is_part_of_bulb_or_main_cardioid c (c.y * c.y) = false ∧
  ∃ i m, loopGo it.escape_radius2 c.x c.y it.max_iterations (initState c) = .escaped i m

end MandelIterator

/-! ## Parallel reduction accumulator (`ParIterResult`) -/

/-- `struct ParIterResult`: per-worker accumulator of the iteration pass. -/
structure ParIterResult where
  histogram : List ℕ
  min_smooth : ℝ
  max_smooth : ℝ
  computed_iteration_count : ℤ

namespace ParIterResult

/-- `ParIterResult::new`. -/
def new (max_iterations : ℕ) : ParIterResult :=
  { histogram := List.replicate max_iterations 0
    min_smooth := 100
    max_smooth := 0
    computed_iteration_count := 0 }

/-- `ParIterResult::add`: a result is counted in the histogram (and its
smooth value tracked) only when `iterations` is strictly below the histogram
length; the computed-iteration total always accumulates. -/
noncomputable def add (acc : ParIterResult) (iter_res : IterationResult) : ParIterResult :=
  if h : iter_res.iterations < acc.histogram.length then
    { histogram := acc.histogram.set iter_res.iterations
        (acc.histogram.get ⟨iter_res.iterations, h⟩ + 1)
      max_smooth := if acc.max_smooth < iter_res.smooth then iter_res.smooth else acc.max_smooth
      min_smooth := if iter_res.smooth < acc.min_smooth then iter_res.smooth else acc.min_smooth
      computed_iteration_count := acc.computed_iteration_count + iter_res.computed }
  else
    { acc with computed_iteration_count := acc.computed_iteration_count + iter_res.computed }

/-- `ParIterResult::combine`: element-wise histogram sum, min/max smooth
tracking, computed-count sum. -/
noncomputable def combine (acc other : ParIterResult) : ParIterResult :=
  { histogram := acc.histogram.zipWith (fun a b => a + b) other.histogram
    min_smooth := if other.min_smooth < acc.min_smooth then other.min_smooth else acc.min_smooth
    max_smooth := if acc.max_smooth < other.max_smooth then other.max_smooth else acc.max_smooth
    computed_iteration_count := acc.computed_iteration_count + other.computed_iteration_count }

end ParIterResult

/-! ## Render-cache / dirty-state controller (`MandelbrotSet`) -/

/-- A stored color (`ggez::graphics::Color`, `f32` components).  The two
color pickers are modelled by the colors they currently return
(`ColorPicker::color()`), which is all the controller's dirty logic and
color pass read from them. -/
structure Color where
  r : ℚ
  g : ℚ
  b : ℚ
  a : ℚ
deriving DecidableEq

/-- `Color::BLACK`. -/
def Color.BLACK : Color := ⟨0, 0, 0, 1⟩

/-- `Color::WHITE`. -/
def Color.WHITE : Color := ⟨1, 1, 1, 1⟩

/-- The `DARK_GREY` draw constant. -/
def DARK_GREY : Color := ⟨0.1, 0.1, 0.1, 1⟩

/-- An `f32` color produced during pixel interpolation (`ℝ`-valued since the
interpolation fraction passes through `sin`). -/
structure ColorF where
  r : ℝ
  g : ℝ
  b : ℝ
  a : ℝ

/-- Cast a stored color into the interpolation space. -/
def Color.toF (c : Color) : ColorF := ⟨(c.r : ℝ), (c.g : ℝ), (c.b : ℝ), (c.a : ℝ)⟩

/-- `utils::interpolate_color`. -/
def interpolate_color (start_color end_color : ColorF) (interpolation : ℝ) : ColorF :=
  ⟨start_color.r + interpolation * (end_color.r - start_color.r),
   start_color.g + interpolation * (end_color.g - start_color.g),
   start_color.b + interpolation * (end_color.b - start_color.b),
   1⟩

/-- Rust float `%` (remainder) for the non-negative operands used here:
`x - y * ⌊x / y⌋`. -/
noncomputable def rmod (x y : ℝ) : ℝ := x - y * (⌊x / y⌋ : ℤ)

/-- The five-stop palette `[out, WHITE, almost_in, DARK_GREY, out]` of the
color pass, by index. -/
def palette (out_color almost_in_color : Color) : ℕ → ColorF
  | 0 => out_color.toF
  | 1 => Color.WHITE.toF
  | 2 => almost_in_color.toF
  | 3 => DARK_GREY.toF
  | _ => out_color.toF

/-- One pixel of the color pass of `compute_drawables`: the `(b, g, r)` byte
triple (scaled to `0..255`, byte quantization left exact) written for a
cached fractional iteration count.  Points at or past `max_iterations` get
the fixed inside color black; others interpolate between the two palette
stops around `(iteration_count / 25.) % 4` with a sinusoidal easing of the
sub-interval fraction. -/
noncomputable def pixel_color (out_color almost_in_color : Color) (max_iterations : ℕ)
    (iteration_count : ℝ) : ℝ × ℝ × ℝ :=
  if (max_iterations : ℝ) ≤ iteration_count then
    (0, 0, 0)
  else
    let n_colors : ℝ := 5 - 1
    let interpolation := rmod (iteration_count / 25) n_colors
    let color1_index : ℕ := ⌊interpolation⌋.toNat
    let color1 := palette out_color almost_in_color color1_index
    let color2 := palette out_color almost_in_color (color1_index + 1)
    let sub_interpolation :=
      Real.sin (interpolation * 2 * Real.pi / n_colors - Real.pi / 2)
    let sign : ℝ := if color1_index < 2 then 1 else -1
    let adder : ℝ := if color1_index % 2 = 0 then 1 else 0
    let c := interpolate_color color1 color2 (adder + sign * sub_interpolation)
    (c.b * 255, c.g * 255, c.r * 255)

/-- The controller state (`struct MandelbrotSet`), restricted to the fields
read or written by `compute_drawables` and its dirty checks.  The pixel
buffer holds one `(b, g, r)` triple per pixel (the constant alpha byte is
dropped); UI/overlay fields (timings, histogram toggle, drag state, point
details) do not feed the cached computations and are omitted. -/
structure MandelbrotSet where
  iteration_rate : ℚ
  pixels : List (ℝ × ℝ × ℝ)
  iteration_counts : List ℝ
  histogram : List ℕ
  box_center : DVec2
  box_size : DVec2
  max_iterations : ℕ
  last_colors : Color × Color
  last_max_iterations : ℕ
  last_view_box : ViewBox
  out_color : Color
  almost_in_color : Color
  escape_radius2 : ℚ

namespace MandelbrotSet

/-- `MandelbrotSet::iterator`. -/
def iterator (s : MandelbrotSet) : MandelIterator :=
  ⟨s.max_iterations, s.escape_radius2⟩

/-- `MandelbrotSet::color_changed`. -/
def color_changed (s : MandelbrotSet) : Bool :=
  decide (s.last_colors.1 ≠ s.out_color) || decide (s.last_colors.2 ≠ s.almost_in_color)

/-- `MandelbrotSet::record_last_values`. -/
def record_last_values (s : MandelbrotSet) (view_box : ViewBox) : MandelbrotSet :=
  { s with
    last_colors := (s.out_color, s.almost_in_color)
    last_max_iterations := s.max_iterations
    last_view_box := view_box }

/-- `MandelbrotSet::need_recreate_pixel_cache`. -/
def need_recreate_pixel_cache (s : MandelbrotSet) (view_box : ViewBox) : Bool :=
  s.last_view_box.size_changed view_box

/-- `MandelbrotSet::need_recompute_iterations`. -/
def need_recompute_iterations (s : MandelbrotSet) (view_box : ViewBox) : Bool :=
  s.need_recreate_pixel_cache view_box ||
  decide (s.last_view_box.box_center ≠ s.box_center) ||
  decide (s.last_view_box.box_size ≠ s.box_size) ||
  decide (s.last_max_iterations ≠ s.max_iterations)

/-- `MandelbrotSet::need_recompute_image`. -/
def need_recompute_image (s : MandelbrotSet) (view_box : ViewBox) : Bool :=
  s.need_recompute_iterations view_box || s.color_changed

/-- The per-pixel results of one iteration pass over a view box. -/
noncomputable def pass_results (it : MandelIterator) (vb : ViewBox) : List IterationResult :=
  (List.range vb.pixel_count).map (fun i => it.iter_to_divergence (vb.mandel_point_from_index i))

/-- The `fold`/`reduce` of the iteration pass: every per-pixel result
accumulated through `ParIterResult::add` starting from `ParIterResult::new`
(sequential order; partitioning-independence is the content of the
`combine` associativity/commutativity claim). -/
noncomputable def pass_reduce (it : MandelIterator) (vb : ViewBox) : ParIterResult :=
  (pass_results it vb).foldl ParIterResult.add (ParIterResult.new it.max_iterations)

/-- `MandelbrotSet::compute_drawables` as a state transformer: build the
frame's `ViewBox`, then run the three cache layers guarded by their dirty
checks, then record the frame's values for the next comparison.  The
drawable list itself (image wrapping, overlays) is not modelled; the pixel
buffer is the image content. -/
noncomputable def compute_drawables (s : MandelbrotSet) (dest size : Vec2) : MandelbrotSet :=
  let view_box := ViewBox.from_center_size dest size s.box_center s.box_size
  let s1 :=
    if s.need_recreate_pixel_cache view_box then
      { s with
        pixels := List.replicate view_box.pixel_count ((255 : ℝ), (255 : ℝ), (255 : ℝ))
        iteration_counts := List.replicate view_box.pixel_count 0 }
    else s
  let s2 :=
    if s.need_recompute_iterations view_box then
      let results := pass_results s.iterator view_box
      let final_acc := pass_reduce s.iterator view_box
      { s1 with
        iteration_counts := results.map (fun r => (r.iterations : ℝ) + r.smooth)
        histogram := final_acc.histogram
        iteration_rate := (final_acc.computed_iteration_count : ℚ) /
          ((s.max_iterations : ℚ) * size.x * size.y) }
    else s1
  let s3 :=
    if s.need_recompute_image view_box then
      { s2 with
        pixels := s2.iteration_counts.map
          (pixel_color s.out_color s.almost_in_color s.max_iterations) }
    else s2
  record_last_values s3 view_box

/-- A concrete controller state for the color-change frame scenario: a fresh
cache (empty buffers, zero last view box), a 1x1 target view of the plane box
centered at the origin with width 1, 100 iterations, escape radius squared
`4`, out color red and almost-in color green. -/
def sample_state : MandelbrotSet :=
  { iteration_rate := 0
    pixels := []
    iteration_counts := []
    histogram := List.replicate 100 0
    box_center := ⟨0, 0⟩
    box_size := ⟨1, 1⟩
    max_iterations := 100
    last_colors := (Color.BLACK, Color.BLACK)
    last_max_iterations := 0
    last_view_box := ViewBox.zero
    out_color := ⟨1, 0, 0, 1⟩
    almost_in_color := ⟨0, 1, 0, 1⟩
    escape_radius2 := 4 }

end MandelbrotSet

/-! ## Fidelity lemmas for the loop embedding -/

namespace MandelIterator

/-- The two-sided cycle-detection bound used in `loopGo` is exactly the
absolute-difference test `f64::abs(v - h) < EPSILON` of the source. -/
theorem cycle_guard_iff_abs (v h e : ℚ) : (v - h < e ∧ h - v < e) ↔ |v - h| < e := by
  rw [abs_lt]
  constructor
  · rintro ⟨h1, h2⟩
    exact ⟨by linarith, h1⟩
  · rintro ⟨h1, h2⟩
    exact ⟨h2, by linarith⟩

/-- The two periodicity-refresh branches of `loopGo` update
`(max_periodicity, refresh_periodicity_cycles)` exactly by `refreshUpdate`. -/
theorem refresh_branch_eq_refreshUpdate (mp rc : ℤ) :
    refreshUpdate (mp, rc) =
      if rc = INCREASE_MAX_PERIODICITY_AFTER_CYCLES then (mp * 2, 1) else (mp, rc + 1) :=
  rfl

/-- Invariants of the iteration loop, by induction on the remaining budget:
a normal exhausted exit carries `i = maxIter`; an escaped exit carries a loop
counter between the entry counter and the budget and a modulus at or past the
escape threshold; a cycle exit carries a counter below the budget. -/
theorem loopGo_spec (er2 cx cy : ℚ) (maxIter : ℕ) :
    ∀ (d : ℕ) (s : LoopState), maxIter - s.i = d → s.i ≤ maxIter →
      (∀ j, loopGo er2 cx cy maxIter s = .exhausted j → j = maxIter) ∧
      (∀ j m, loopGo er2 cx cy maxIter s = .escaped j m → s.i ≤ j ∧ j < maxIter ∧ er2 ≤ m) ∧
      (∀ j, loopGo er2 cx cy maxIter s = .cycle j → s.i ≤ j ∧ j < maxIter) := by
  intro d
  induction d with
  | zero =>
    intro s hd hle
    have hge : maxIter ≤ s.i := by omega
    have hc : ¬ (s.i < maxIter ∧ s.x2 + s.y2 < er2) := by
      rintro ⟨h1, -⟩; omega
    refine ⟨?_, ?_, ?_⟩
    · intro j h
      rw [loopGo, dif_neg hc, if_pos hge] at h
      simp only [LoopOutcome.exhausted.injEq] at h
      omega
    · intro j m h
      rw [loopGo, dif_neg hc, if_pos hge] at h
      simp at h
    · intro j h
      rw [loopGo, dif_neg hc, if_pos hge] at h
      simp at h
  | succ d ih =>
    intro s hd hle
    by_cases hc : s.i < maxIter ∧ s.x2 + s.y2 < er2
    · refine ⟨?_, ?_, ?_⟩
      · intro j h
        rw [loopGo, dif_pos hc] at h
        dsimp only at h
        split at h
        · simp at h
        · split at h
          · split at h
            · exact (ih _ (by show maxIter - (s.i + 1) = d; omega)
                (by show s.i + 1 ≤ maxIter; omega)).1 j h
            · exact (ih _ (by show maxIter - (s.i + 1) = d; omega)
                (by show s.i + 1 ≤ maxIter; omega)).1 j h
          · exact (ih _ (by show maxIter - (s.i + 1) = d; omega)
              (by show s.i + 1 ≤ maxIter; omega)).1 j h
      · intro j m h
        rw [loopGo, dif_pos hc] at h
        dsimp only at h
        split at h
        · simp at h
        · split at h
          · split at h
            · obtain ⟨h1, h2⟩ := (ih _ (by show maxIter - (s.i + 1) = d; omega)
                (by show s.i + 1 ≤ maxIter; omega)).2.1 j m h
              have h1' : s.i + 1 ≤ j := h1
              exact ⟨by omega, h2⟩
            · obtain ⟨h1, h2⟩ := (ih _ (by show maxIter - (s.i + 1) = d; omega)
                (by show s.i + 1 ≤ maxIter; omega)).2.1 j m h
              have h1' : s.i + 1 ≤ j := h1
              exact ⟨by omega, h2⟩
          · obtain ⟨h1, h2⟩ := (ih _ (by show maxIter - (s.i + 1) = d; omega)
              (by show s.i + 1 ≤ maxIter; omega)).2.1 j m h
            have h1' : s.i + 1 ≤ j := h1
            exact ⟨by omega, h2⟩
      · intro j h
        rw [loopGo, dif_pos hc] at h
        dsimp only at h
        split at h
        · simp only [LoopOutcome.cycle.injEq] at h
          omega
        · split at h
          · split at h
            · obtain ⟨h1, h2⟩ := (ih _ (by show maxIter - (s.i + 1) = d; omega)
                (by show s.i + 1 ≤ maxIter; omega)).2.2 j h
              have h1' : s.i + 1 ≤ j := h1
              exact ⟨by omega, h2⟩
            · obtain ⟨h1, h2⟩ := (ih _ (by show maxIter - (s.i + 1) = d; omega)
                (by show s.i + 1 ≤ maxIter; omega)).2.2 j h
              have h1' : s.i + 1 ≤ j := h1
              exact ⟨by omega, h2⟩
          · obtain ⟨h1, h2⟩ := (ih _ (by show maxIter - (s.i + 1) = d; omega)
              (by show s.i + 1 ≤ maxIter; omega)).2.2 j h
            have h1' : s.i + 1 ≤ j := h1
            exact ⟨by omega, h2⟩
    · have hlt : s.i < maxIter := by omega
      have hm : er2 ≤ s.x2 + s.y2 := by
        by_contra hm
        exact hc ⟨hlt, by linarith⟩
      have hni : ¬ maxIter ≤ s.i := by omega
      refine ⟨?_, ?_, ?_⟩
      · intro j h
        rw [loopGo, dif_neg hc, if_neg hni] at h
        simp at h
      · intro j m h
        rw [loopGo, dif_neg hc, if_neg hni] at h
        simp only [LoopOutcome.escaped.injEq] at h
        obtain ⟨rfl, rfl⟩ := h
        exact ⟨le_refl _, hlt, hm⟩
      · intro j h
        rw [loopGo, dif_neg hc, if_neg hni] at h
        simp at h

/-- Any point matching a known circle or the bulb/cardioid test is returned
as a maximal-iteration, non-escaping, zero-work result without running the
loop. -/
theorem iter_to_divergence_of_shortcut (it : MandelIterator) (c : DVec2)
    (h : is_known_member c = true ∨ is_part_of_bulb_or_main_cardioid c (c.y * c.y) = true) :
    it.iter_to_divergence c = ⟨it.max_iterations, 0, 0⟩ := by
  unfold iter_to_divergence
  rcases h with h | h
  · simp [h]
  · cases hk : is_known_member c <;> simp [hk, h]

/-- Past the escape threshold `4`, the smooth exponent `nu` is
non-negative. -/
theorem nu_nonneg {m : ℚ} (hm : (4 : ℚ) ≤ m) : 0 ≤ nu m := by
  have hm' : (4 : ℝ) ≤ (m : ℝ) := by exact_mod_cast hm
  have hmpos : (0 : ℝ) < (m : ℝ) := by linarith
  have h2 : (2 : ℝ) ≤ Real.logb 2 (m : ℝ) := by
    rw [Real.le_logb_iff_rpow_le one_lt_two hmpos]
    calc (2 : ℝ) ^ (2 : ℝ) = (2 : ℝ) ^ (2 : ℕ) := by
          rw [← Real.rpow_natCast]
          norm_num
      _ = 4 := by norm_num
      _ ≤ (m : ℝ) := hm'
  unfold nu
  exact Real.logb_nonneg one_lt_two (by linarith)

end MandelIterator

/-! ## Claim C4: the screen-to-plane transform -/

/-- A positive rounded screen dimension forces a positive exact one. -/
theorem roundAway_pos {q : ℚ} (h : 0 < roundAway q) : 1 / 2 ≤ q := by
  unfold roundAway at h
  split at h
  · have h1 : (1 : ℤ) ≤ ⌊q + 1 / 2⌋ := h
    have := Int.le_floor.mp h1
    push_cast at this
    linarith
  · rename_i hq
    push_neg at hq
    have h0 : (0 : ℚ) ≤ -q + 1 / 2 := by linarith
    have := Int.floor_nonneg.mpr h0
    omega

/-- C4: `plane = (pixel - screen_center) * (box_size.x / screen_size.x) +
box_center` on both axes — only the horizontal ratio is used, so the
transform is isotropic; and concretely, for box center `(-0.5, 0)`, box size
`2.5`, screen `100x100`, the pixel at the screen center `(50, 50)` maps
exactly to the plane point `(-0.5, 0)`. -/
theorem mandel_point_formula_and_center :
    (∀ (sc ss : Vec2) (bc bs : DVec2) (px py : ℤ),
      (ViewBox.from_center_size sc ss bc bs).mandel_point px py =
        ⟨((px : ℚ) - sc.x) * (bs.x / ss.x) + bc.x,
         ((py : ℚ) - sc.y) * (bs.x / ss.x) + bc.y⟩) ∧
    (ViewBox.from_center_size ⟨50, 50⟩ ⟨100, 100⟩ ⟨-1/2, 0⟩ ⟨5/2, 5/2⟩).mandel_point 50 50 =
      ⟨-1/2, 0⟩ := by
  constructor
  · intro sc ss bc bs px py
    simp [ViewBox.from_center_size, ViewBox.mandel_point]
  · norm_num [ViewBox.from_center_size, ViewBox.mandel_point]

/-! ## Claim C3: pixel-index round trip -/

/-- C3 (amended): for a `ViewBox` with positive screen dimensions and
nonzero plane-box width, mapping a pixel index to the plane and back
recovers the pixel's screen coordinates exactly. -/
theorem mandel_roundtrip (sc ss : Vec2) (bc bs : DVec2) (i : ℕ)
    (hbx : bs.x ≠ 0)
    (hw : 0 < (ViewBox.from_center_size sc ss bc bs).screen_size_i.x)
    (hh : 0 < (ViewBox.from_center_size sc ss bc bs).screen_size_i.y)
    (hi : i < (ViewBox.from_center_size sc ss bc bs).pixel_count) :
    (ViewBox.from_center_size sc ss bc bs).screen_pixel
        ((ViewBox.from_center_size sc ss bc bs).mandel_point_from_index i) =
      ⟨(((ViewBox.from_center_size sc ss bc bs).screen_min_i.x +
          (i : ℤ) % (ViewBox.from_center_size sc ss bc bs).screen_size_i.x : ℤ) : ℚ),
       (((ViewBox.from_center_size sc ss bc bs).screen_min_i.y +
          (i : ℤ) / (ViewBox.from_center_size sc ss bc bs).screen_size_i.x : ℤ) : ℚ)⟩ := by
  have hssx : (0 : ℚ) < ss.x := lt_of_lt_of_le (by norm_num) (roundAway_pos hw)
  have hr : bs.x / ss.x ≠ 0 := div_ne_zero hbx (ne_of_gt hssx)
  simp only [ViewBox.from_center_size, ViewBox.mandel_point_from_index, ViewBox.mandel_point,
    ViewBox.screen_pixel] at *
  congr 1 <;> (field_simp; ring)

/-- C3, failure of the unamended claim: with positive screen dimensions but a
zero-width plane box, the round trip lands on the screen center `(50, 50)`
instead of pixel `(0, 0)` — off by 50 pixels, far beyond rounding
tolerance. -/
theorem mandel_roundtrip_zero_box_counterexample :
    0 < (ViewBox.from_center_size ⟨50, 50⟩ ⟨100, 100⟩ ⟨0, 0⟩ ⟨0, 0⟩).screen_size_i.x ∧
    0 < (ViewBox.from_center_size ⟨50, 50⟩ ⟨100, 100⟩ ⟨0, 0⟩ ⟨0, 0⟩).screen_size_i.y ∧
    0 < (ViewBox.from_center_size ⟨50, 50⟩ ⟨100, 100⟩ ⟨0, 0⟩ ⟨0, 0⟩).pixel_count ∧
    (ViewBox.from_center_size ⟨50, 50⟩ ⟨100, 100⟩ ⟨0, 0⟩ ⟨0, 0⟩).screen_min_i = ⟨0, 0⟩ ∧
    (ViewBox.from_center_size ⟨50, 50⟩ ⟨100, 100⟩ ⟨0, 0⟩ ⟨0, 0⟩).screen_pixel
        ((ViewBox.from_center_size ⟨50, 50⟩ ⟨100, 100⟩ ⟨0, 0⟩ ⟨0, 0⟩).mandel_point_from_index 0) =
      ⟨50, 50⟩ := by
  norm_num [ViewBox.from_center_size, ViewBox.mandel_point_from_index, ViewBox.mandel_point,
    ViewBox.screen_pixel, roundAway]

/-- Witness for C3 (amended) at a concrete view box and pixel index 7. -/
theorem mandel_roundtrip_witness :
    ((5/2 : ℚ) ≠ 0) ∧
    (ViewBox.from_center_size ⟨50, 50⟩ ⟨100, 100⟩ ⟨-1/2, 0⟩ ⟨5/2, 5/2⟩).screen_pixel
        ((ViewBox.from_center_size ⟨50, 50⟩ ⟨100, 100⟩ ⟨-1/2, 0⟩
            ⟨5/2, 5/2⟩).mandel_point_from_index 7) =
      ⟨(((ViewBox.from_center_size ⟨50, 50⟩ ⟨100, 100⟩ ⟨-1/2, 0⟩ ⟨5/2, 5/2⟩).screen_min_i.x +
          (7 : ℤ) % (ViewBox.from_center_size ⟨50, 50⟩ ⟨100, 100⟩ ⟨-1/2, 0⟩
            ⟨5/2, 5/2⟩).screen_size_i.x : ℤ) : ℚ),
       (((ViewBox.from_center_size ⟨50, 50⟩ ⟨100, 100⟩ ⟨-1/2, 0⟩ ⟨5/2, 5/2⟩).screen_min_i.y +
          (7 : ℤ) / (ViewBox.from_center_size ⟨50, 50⟩ ⟨100, 100⟩ ⟨-1/2, 0⟩
            ⟨5/2, 5/2⟩).screen_size_i.x : ℤ) : ℚ)⟩ :=
  ⟨by norm_num,
   mandel_roundtrip ⟨50, 50⟩ ⟨100, 100⟩ ⟨-1/2, 0⟩ ⟨5/2, 5/2⟩ 7 (by norm_num)
     (by norm_num [ViewBox.from_center_size, roundAway])
     (by norm_num [ViewBox.from_center_size, roundAway])
     (by norm_num [ViewBox.from_center_size, roundAway])⟩

/-! ## Claim C6: known-region shortcuts -/

open MandelIterator in
/-- C6: any point matching a known-circle test or the bulb/cardioid
closed-form test is returned without entering the iteration loop as
`{iterations = max_iterations, smooth = 0, computed = 0}` — a
maximal-iteration, non-escaping, zero-work-credit outcome. -/
theorem shortcut_gives_max_noniterated (maxIter : ℕ) (er2 : ℚ) (c : DVec2)
    (h : is_known_member c = true ∨
      is_part_of_bulb_or_main_cardioid c (c.y * c.y) = true) :
    MandelIterator.iter_to_divergence ⟨maxIter, er2⟩ c = ⟨maxIter, 0, 0⟩ :=
  iter_to_divergence_of_shortcut ⟨maxIter, er2⟩ c h

open MandelIterator in
/-- Witness for C6 at the cardioid point `(-1/2, 0)`. -/
theorem shortcut_gives_max_noniterated_witness :
    (is_known_member ⟨-1/2, 0⟩ = true ∨
      is_part_of_bulb_or_main_cardioid ⟨-1/2, 0⟩
        ((⟨-1/2, 0⟩ : DVec2).y * (⟨-1/2, 0⟩ : DVec2).y) = true) ∧
    MandelIterator.iter_to_divergence ⟨100, 4⟩ ⟨-1/2, 0⟩ = ⟨100, 0, 0⟩ := by
  have h : is_part_of_bulb_or_main_cardioid ⟨-1/2, 0⟩
      ((⟨-1/2, 0⟩ : DVec2).y * (⟨-1/2, 0⟩ : DVec2).y) = true := by
    norm_num [is_part_of_bulb_or_main_cardioid]
  exact ⟨Or.inr h, shortcut_gives_max_noniterated 100 4 ⟨-1/2, 0⟩ (Or.inr h)⟩

/-! ## Claim C5: smooth escape adjustment -/

open MandelIterator in
/-- C5: when the loop escapes at step `j` with modulus `m`, the iterator
returns the clamped smooth adjustment `max(0, 1 - nu m)` with
`nu = log2(log2 m / 2)`; the adjustment is non-negative (the clamp guards a
non-positive logarithm argument) and so is the continuous iteration estimate
`j + smooth`. -/
theorem escape_smooth_formula (maxIter : ℕ) (er2 : ℚ) (c : DVec2) (j : ℕ) (m : ℚ)
    (hk : is_known_member c = false)
    (hb : is_part_of_bulb_or_main_cardioid c (c.y * c.y) = false)
    (hl : loopGo er2 c.x c.y maxIter (initState c) = .escaped j m) :
    MandelIterator.iter_to_divergence ⟨maxIter, er2⟩ c = ⟨j, max 0 (1 - nu m), j⟩ ∧
    0 ≤ (MandelIterator.iter_to_divergence ⟨maxIter, er2⟩ c).smooth ∧
    0 ≤ (j : ℝ) + (MandelIterator.iter_to_divergence ⟨maxIter, er2⟩ c).smooth := by
  have he : MandelIterator.iter_to_divergence ⟨maxIter, er2⟩ c = ⟨j, max 0 (1 - nu m), j⟩ := by
    unfold MandelIterator.iter_to_divergence
    simp [hk, hb, hl, result_of_outcome]
  refine ⟨he, ?_, ?_⟩
  · rw [he]
    exact le_max_left _ _
  · rw [he]
    exact add_nonneg (Nat.cast_nonneg j) (le_max_left _ _)

open MandelIterator in
/-- Witness for C5 at the immediately escaping point `(5/2, 0)`. -/
theorem escape_smooth_formula_witness :
    loopGo 4 (5/2) 0 100 (initState ⟨5/2, 0⟩) = .escaped 0 (25/4) ∧
    MandelIterator.iter_to_divergence ⟨100, 4⟩ ⟨5/2, 0⟩ =
      ⟨0, max 0 (1 - nu (25/4)), 0⟩ := by
  have hk : is_known_member ⟨5/2, 0⟩ = false := by
    norm_num [is_known_member, KnownCircle.is_part, KNOW_CIRCLES]
  have hb : is_part_of_bulb_or_main_cardioid ⟨5/2, 0⟩
      ((⟨5/2, 0⟩ : DVec2).y * (⟨5/2, 0⟩ : DVec2).y) = false := by
    norm_num [is_part_of_bulb_or_main_cardioid]
  have hl : loopGo 4 (5/2) 0 100 (initState ⟨5/2, 0⟩) = .escaped 0 (25/4) := by
    rw [loopGo]
    norm_num [initState]
  exact ⟨hl, (escape_smooth_formula 100 4 ⟨5/2, 0⟩ 0 (25/4) hk hb hl).1⟩

/-! ## Claim C10: result invariants of the iterator -/

open MandelIterator in
/-- C10: with the program's escape radius (`ESCAPE_RADIUS^2 = 4`), every
result has `iterations ≤ max_iterations` and `computed ≤ max_iterations`;
`iterations < max_iterations` holds exactly on the escape path, where
`computed = iterations`, the smooth adjustment lies in `[0, 1]` and
`iterations + smooth ≤ max_iterations`; every non-escaping outcome
(shortcut, cycle, exhausted budget) has `smooth = 0`. -/
theorem iter_result_invariants (maxIter : ℕ) (c : DVec2) :
    (MandelIterator.iter_to_divergence ⟨maxIter, ESCAPE_RADIUS * ESCAPE_RADIUS⟩ c).iterations ≤ maxIter ∧
    (MandelIterator.iter_to_divergence ⟨maxIter, ESCAPE_RADIUS * ESCAPE_RADIUS⟩ c).computed ≤ maxIter ∧
    ((MandelIterator.iter_to_divergence ⟨maxIter, ESCAPE_RADIUS * ESCAPE_RADIUS⟩ c).iterations < maxIter ↔
      Escapes ⟨maxIter, ESCAPE_RADIUS * ESCAPE_RADIUS⟩ c) ∧
    (Escapes ⟨maxIter, ESCAPE_RADIUS * ESCAPE_RADIUS⟩ c →
      (MandelIterator.iter_to_divergence ⟨maxIter, ESCAPE_RADIUS * ESCAPE_RADIUS⟩ c).computed =
        (MandelIterator.iter_to_divergence ⟨maxIter, ESCAPE_RADIUS * ESCAPE_RADIUS⟩ c).iterations ∧
      0 ≤ (MandelIterator.iter_to_divergence ⟨maxIter, ESCAPE_RADIUS * ESCAPE_RADIUS⟩ c).smooth ∧
      (MandelIterator.iter_to_divergence ⟨maxIter, ESCAPE_RADIUS * ESCAPE_RADIUS⟩ c).smooth ≤ 1 ∧
      ((MandelIterator.iter_to_divergence ⟨maxIter, ESCAPE_RADIUS * ESCAPE_RADIUS⟩ c).iterations : ℝ) +
        (MandelIterator.iter_to_divergence ⟨maxIter, ESCAPE_RADIUS * ESCAPE_RADIUS⟩ c).smooth ≤ (maxIter : ℝ)) ∧
    (¬ Escapes ⟨maxIter, ESCAPE_RADIUS * ESCAPE_RADIUS⟩ c →
      (MandelIterator.iter_to_divergence ⟨maxIter, ESCAPE_RADIUS * ESCAPE_RADIUS⟩ c).smooth = 0) := by
  by_cases hk : is_known_member c = true
  · have hres : MandelIterator.iter_to_divergence ⟨maxIter, ESCAPE_RADIUS * ESCAPE_RADIUS⟩ c =
        ⟨maxIter, 0, 0⟩ :=
      iter_to_divergence_of_shortcut _ c (Or.inl hk)
    have hesc : ¬ Escapes ⟨maxIter, ESCAPE_RADIUS * ESCAPE_RADIUS⟩ c := by
      rintro ⟨h1, -, -⟩
      rw [hk] at h1
      cases h1
    rw [hres]
    exact ⟨le_refl _, Nat.zero_le _,
      ⟨fun h => absurd h (lt_irrefl _), fun h => absurd h hesc⟩,
      fun h => absurd h hesc, fun _ => rfl⟩
  · have hkf : is_known_member c = false := by
      cases hq : is_known_member c
      · rfl
      · exact absurd hq hk
    by_cases hbp : is_part_of_bulb_or_main_cardioid c (c.y * c.y) = true
    · have hres : MandelIterator.iter_to_divergence ⟨maxIter, ESCAPE_RADIUS * ESCAPE_RADIUS⟩ c =
          ⟨maxIter, 0, 0⟩ :=
        iter_to_divergence_of_shortcut _ c (Or.inr hbp)
      have hesc : ¬ Escapes ⟨maxIter, ESCAPE_RADIUS * ESCAPE_RADIUS⟩ c := by
        rintro ⟨-, h2, -⟩
        rw [hbp] at h2
        cases h2
      rw [hres]
      exact ⟨le_refl _, Nat.zero_le _,
        ⟨fun h => absurd h (lt_irrefl _), fun h => absurd h hesc⟩,
        fun h => absurd h hesc, fun _ => rfl⟩
    · have hbf : is_part_of_bulb_or_main_cardioid c (c.y * c.y) = false := by
        cases hq : is_part_of_bulb_or_main_cardioid c (c.y * c.y)
        · rfl
        · exact absurd hq hbp
      have hresdef : MandelIterator.iter_to_divergence ⟨maxIter, ESCAPE_RADIUS * ESCAPE_RADIUS⟩ c =
          result_of_outcome maxIter
            (loopGo (ESCAPE_RADIUS * ESCAPE_RADIUS) c.x c.y maxIter (initState c)) := by
        unfold MandelIterator.iter_to_divergence
        simp [hkf, hbf]
      have hspec := loopGo_spec (ESCAPE_RADIUS * ESCAPE_RADIUS) c.x c.y maxIter maxIter
        (initState c) (by show maxIter - 0 = maxIter; omega) (by show (0 : ℕ) ≤ maxIter; omega)
      cases hL : loopGo (ESCAPE_RADIUS * ESCAPE_RADIUS) c.x c.y maxIter (initState c) with
      | cycle j =>
        have hres : MandelIterator.iter_to_divergence ⟨maxIter, ESCAPE_RADIUS * ESCAPE_RADIUS⟩ c =
            ⟨maxIter, 0, 0⟩ := by
          rw [hresdef, hL]
          rfl
        have hesc : ¬ Escapes ⟨maxIter, ESCAPE_RADIUS * ESCAPE_RADIUS⟩ c := by
          rintro ⟨-, -, j', m', hL'⟩
          rw [hL] at hL'
          cases hL'
        rw [hres]
        exact ⟨le_refl _, Nat.zero_le _,
          ⟨fun h => absurd h (lt_irrefl _), fun h => absurd h hesc⟩,
          fun h => absurd h hesc, fun _ => rfl⟩
      | exhausted j =>
        have hj : j = maxIter := hspec.1 j hL
        have hres : MandelIterator.iter_to_divergence ⟨maxIter, ESCAPE_RADIUS * ESCAPE_RADIUS⟩ c =
            ⟨maxIter, 0, j⟩ := by
          rw [hresdef, hL]
          rfl
        have hesc : ¬ Escapes ⟨maxIter, ESCAPE_RADIUS * ESCAPE_RADIUS⟩ c := by
          rintro ⟨-, -, j', m', hL'⟩
          rw [hL] at hL'
          cases hL'
        rw [hres]
        exact ⟨le_refl _, by show j ≤ maxIter; omega,
          ⟨fun h => absurd h (lt_irrefl _), fun h => absurd h hesc⟩,
          fun h => absurd h hesc, fun _ => rfl⟩
      | escaped j m =>
        obtain ⟨-, hjlt, hm⟩ := hspec.2.1 j m hL
        have hm4 : (4 : ℚ) ≤ m := by
          have h4 : ESCAPE_RADIUS * ESCAPE_RADIUS = (4 : ℚ) := by norm_num [ESCAPE_RADIUS]
          linarith [hm, h4.ge]
        have hres : MandelIterator.iter_to_divergence ⟨maxIter, ESCAPE_RADIUS * ESCAPE_RADIUS⟩ c =
            ⟨j, max 0 (1 - nu m), j⟩ := by
          rw [hresdef, hL]
          rfl
        have hesc : Escapes ⟨maxIter, ESCAPE_RADIUS * ESCAPE_RADIUS⟩ c := ⟨hkf, hbf, j, m, hL⟩
        have hnu := nu_nonneg hm4
        have hsm1 : max 0 (1 - nu m) ≤ 1 := max_le zero_le_one (by linarith)
        have hsum : ((j : ℕ) : ℝ) + max 0 (1 - nu m) ≤ (maxIter : ℝ) := by
          have hj1 : (j : ℝ) + 1 ≤ (maxIter : ℝ) := by
            have : (j + 1 : ℕ) ≤ maxIter := hjlt
            exact_mod_cast this
          linarith
        rw [hres]
        exact ⟨le_of_lt hjlt, le_of_lt hjlt,
          ⟨fun _ => hesc, fun _ => hjlt⟩,
          fun _ => ⟨rfl, le_max_left _ _, hsm1, hsum⟩,
          fun h => absurd hesc h⟩

open MandelIterator in
/-- Witness for C10: the escape-path conclusions at the escaping point
`(5/2, 0)` with a 100-iteration budget. -/
theorem iter_result_invariants_witness :
    (MandelIterator.iter_to_divergence ⟨100, ESCAPE_RADIUS * ESCAPE_RADIUS⟩ ⟨5/2, 0⟩).computed =
      (MandelIterator.iter_to_divergence ⟨100, ESCAPE_RADIUS * ESCAPE_RADIUS⟩ ⟨5/2, 0⟩).iterations ∧
    0 ≤ (MandelIterator.iter_to_divergence ⟨100, ESCAPE_RADIUS * ESCAPE_RADIUS⟩ ⟨5/2, 0⟩).smooth ∧
    (MandelIterator.iter_to_divergence ⟨100, ESCAPE_RADIUS * ESCAPE_RADIUS⟩ ⟨5/2, 0⟩).smooth ≤ 1 ∧
    ((MandelIterator.iter_to_divergence ⟨100, ESCAPE_RADIUS * ESCAPE_RADIUS⟩ ⟨5/2, 0⟩).iterations : ℝ) +
      (MandelIterator.iter_to_divergence ⟨100, ESCAPE_RADIUS * ESCAPE_RADIUS⟩ ⟨5/2, 0⟩).smooth ≤
        ((100 : ℕ) : ℝ) := by
  apply (iter_result_invariants 100 ⟨5/2, 0⟩).2.2.2.1
  refine ⟨by norm_num [is_known_member, KnownCircle.is_part, KNOW_CIRCLES],
    by norm_num [is_part_of_bulb_or_main_cardioid], 0, 25/4, ?_⟩
  rw [loopGo]
  norm_num [initState, ESCAPE_RADIUS]

/-! ## Claim C7: cycle detection and periodicity doubling -/

open MandelIterator in
/-- C7: when, past the loop guard, the next iterate matches the checkpoint
`(xh, yh)` within the absolute-difference epsilon, the loop returns a cycle
exit at the current counter, which the iterator reports as a non-escaping
result with zero computed-iteration credit; the checkpoint cadence starts at
`max_periodicity = 3` with `refresh_periodicity_cycles = 0`, and iterating
the refresh update doubles `max_periodicity` every
`INCREASE_MAX_PERIODICITY_AFTER_CYCLES` (= 10) refresh cycles. -/
theorem cycle_detection_and_periodicity_doubling :
    (∀ (er2 cx cy : ℚ) (maxIter : ℕ) (s : LoopState),
      s.i < maxIter → s.x2 + s.y2 < er2 →
      |s.x2 - s.y2 + cx - s.xh| < EPSILON →
      |s.xy + s.xy + cy - s.yh| < EPSILON →
      loopGo er2 cx cy maxIter s = .cycle s.i) ∧
    (∀ (maxIter j : ℕ),
      result_of_outcome maxIter (.cycle j) = ⟨maxIter, 0, 0⟩) ∧
    (∀ (c : DVec2),
      (initState c).max_periodicity = 3 ∧ (initState c).refresh_periodicity_cycles = 0) ∧
    (∀ n : ℕ,
      (refreshUpdate^[n] ((3 : ℤ), (0 : ℤ))).1 = 3 * 2 ^ ((n - 1) / 10) ∧
      (refreshUpdate^[n] ((3 : ℤ), (0 : ℤ))).2 =
        if n = 0 then 0 else (((n - 1) % 10 : ℕ) : ℤ) + 1) := by
  refine ⟨?_, fun maxIter j => rfl, fun c => ⟨rfl, rfl⟩, ?_⟩
  · intro er2 cx cy maxIter s h1 h2 h3 h4
    rw [loopGo, dif_pos ⟨h1, h2⟩]
    dsimp only
    rw [if_pos ⟨(cycle_guard_iff_abs _ _ _).mpr h3, (cycle_guard_iff_abs _ _ _).mpr h4⟩]
  · intro n
    induction n with
    | zero => simp
    | succ n ih =>
      obtain ⟨ih1, ih2⟩ := ih
      rw [Function.iterate_succ_apply']
      by_cases hn : n = 0
      · subst hn
        norm_num [refreshUpdate, INCREASE_MAX_PERIODICITY_AFTER_CYCLES]
      · by_cases hr : (n - 1) % 10 = 9
        · have hrc : (refreshUpdate^[n] ((3 : ℤ), (0 : ℤ))).2 =
              INCREASE_MAX_PERIODICITY_AFTER_CYCLES := by
            rw [ih2, if_neg hn]
            unfold INCREASE_MAX_PERIODICITY_AFTER_CYCLES
            omega
          constructor
          · rw [refreshUpdate, if_pos hrc, ih1]
            have hdiv : (n + 1 - 1) / 10 = (n - 1) / 10 + 1 := by omega
            rw [hdiv, pow_succ]
            ring
          · rw [refreshUpdate, if_pos hrc]
            have : (n + 1 - 1) % 10 = 0 := by omega
            rw [if_neg (Nat.succ_ne_zero n), this]
            norm_num
        · have hrc : (refreshUpdate^[n] ((3 : ℤ), (0 : ℤ))).2 ≠
              INCREASE_MAX_PERIODICITY_AFTER_CYCLES := by
            rw [ih2, if_neg hn]
            unfold INCREASE_MAX_PERIODICITY_AFTER_CYCLES
            omega
          constructor
          · rw [refreshUpdate, if_neg hrc, ih1]
            have hdiv : (n + 1 - 1) / 10 = (n - 1) / 10 := by omega
            rw [hdiv]
          · rw [refreshUpdate, if_neg hrc, ih2, if_neg hn, if_neg (Nat.succ_ne_zero n)]
            have : (n + 1 - 1) % 10 = (n - 1) % 10 + 1 := by omega
            rw [this]
            push_cast
            ring

open MandelIterator in
/-- Witness for C7: the loop state at `c = (0, 0)` matches the zero
checkpoint immediately and exits through cycle detection. -/
theorem cycle_detection_and_periodicity_doubling_witness :
    loopGo 4 0 0 100 (initState ⟨0, 0⟩) = .cycle 0 :=
  cycle_detection_and_periodicity_doubling.1 4 0 0 100 (initState ⟨0, 0⟩)
    (by norm_num [initState]) (by norm_num [initState])
    (by norm_num [initState, EPSILON]) (by norm_num [initState, EPSILON])

/-! ## Claim C9: the combine reduction is associative and commutative -/

/-- The source's min-tracking conditional is the lattice minimum. -/
theorem if_lt_min (a b : ℝ) : (if b < a then b else a) = min a b := by
  split_ifs with h
  · exact (min_eq_right h.le).symm
  · exact (min_eq_left (not_lt.mp h)).symm

/-- The source's max-tracking conditional is the lattice maximum. -/
theorem if_lt_max (a b : ℝ) : (if a < b then b else a) = max a b := by
  split_ifs with h
  · exact (max_eq_right h.le).symm
  · exact (max_eq_left (not_lt.mp h)).symm

/-- `ParIterResult::combine` in closed form: element-wise histogram sums,
`min`/`max` smooth tracking, computed-count sum. -/
theorem combine_eq (a b : ParIterResult) :
    a.combine b =
      ⟨a.histogram.zipWith (fun x y => x + y) b.histogram,
       min a.min_smooth b.min_smooth, max a.max_smooth b.max_smooth,
       a.computed_iteration_count + b.computed_iteration_count⟩ := by
  unfold ParIterResult.combine
  rw [if_lt_min, if_lt_max]

/-- Element-wise list addition is associative. -/
theorem zipWith_add_assoc (l1 l2 l3 : List ℕ) :
    List.zipWith (fun x y => x + y) l1 (List.zipWith (fun x y => x + y) l2 l3) =
      List.zipWith (fun x y => x + y) (List.zipWith (fun x y => x + y) l1 l2) l3 := by
  induction l1 generalizing l2 l3 with
  | nil => simp
  | cons a t ih =>
    cases l2 with
    | nil => simp
    | cons b t2 =>
      cases l3 with
      | nil => simp
      | cons c t3 => simp [ih, Nat.add_assoc]

/-- C9: for accumulators with equal-length histograms,
`ParIterResult::combine` is associative and commutative on every field
(histogram sums, min/max smooth, computed count), so the reduction result is
independent of how pixels are partitioned among workers. -/
theorem combine_assoc_and_comm (a b c : ParIterResult)
    (hab : a.histogram.length = b.histogram.length)
    (hbc : b.histogram.length = c.histogram.length) :
    a.combine (b.combine c) = (a.combine b).combine c ∧
    a.combine b = b.combine a := by
  constructor
  · simp only [combine_eq]
    rw [ParIterResult.mk.injEq]
    exact ⟨zipWith_add_assoc _ _ _, (min_assoc _ _ _).symm,
      (max_assoc _ _ _).symm, (add_assoc _ _ _).symm⟩
  · simp only [combine_eq]
    rw [ParIterResult.mk.injEq]
    exact ⟨List.zipWith_comm_of_comm _ (fun x y => Nat.add_comm x y) _ _,
      min_comm _ _, max_comm _ _, add_comm _ _⟩

/-- Witness for C9 at three fresh one-bucket accumulators. -/
theorem combine_assoc_and_comm_witness :
    (ParIterResult.new 1).combine ((ParIterResult.new 1).combine (ParIterResult.new 1)) =
      ((ParIterResult.new 1).combine (ParIterResult.new 1)).combine (ParIterResult.new 1) ∧
    (ParIterResult.new 1).combine (ParIterResult.new 1) =
      (ParIterResult.new 1).combine (ParIterResult.new 1) :=
  combine_assoc_and_comm (ParIterResult.new 1) (ParIterResult.new 1) (ParIterResult.new 1)
    rfl rfl

/-! ## Claim C8: histogram sum invariant of the reduction pass -/

/-- Incrementing one in-range histogram bucket adds one to the sum. -/
theorem sum_set_get_add_one {l : List ℕ} {n : ℕ} (h : n < l.length) :
    (l.set n (l.get ⟨n, h⟩ + 1)).sum = l.sum + 1 := by
  induction l generalizing n with
  | nil => simp at h
  | cons a t ih =>
    cases n with
    | zero =>
      show ((a + 1) :: t).sum = (a :: t).sum + 1
      simp only [List.sum_cons]
      omega
    | succ k =>
      have hk : k < t.length := by simpa using h
      show (a :: t.set k (t.get ⟨k, hk⟩ + 1)).sum = (a :: t).sum + 1
      simp only [List.sum_cons, ih hk]
      omega

/-- `ParIterResult::add` never changes the histogram length. -/
theorem add_histogram_length (acc : ParIterResult) (r : IterationResult) :
    (acc.add r).histogram.length = acc.histogram.length := by
  unfold ParIterResult.add
  split <;> simp

/-- `ParIterResult::add` raises the histogram sum by one exactly when the
result's iteration count is strictly below the histogram length. -/
theorem add_histogram_sum (acc : ParIterResult) (r : IterationResult) :
    (acc.add r).histogram.sum =
      acc.histogram.sum + if r.iterations < acc.histogram.length then 1 else 0 := by
  unfold ParIterResult.add
  split
  case isTrue h =>
    exact sum_set_get_add_one h
  case isFalse h => simp [if_neg h]

/-- Folding `add` preserves the histogram length. -/
theorem foldl_add_histogram_length (rs : List IterationResult) (acc : ParIterResult) :
    (rs.foldl ParIterResult.add acc).histogram.length = acc.histogram.length := by
  induction rs generalizing acc with
  | nil => rfl
  | cons r rs ih => rw [List.foldl_cons, ih, add_histogram_length]

/-- Folding `add` counts exactly the results whose iteration count is
strictly below the histogram length. -/
theorem foldl_add_histogram_sum (rs : List IterationResult) (acc : ParIterResult) :
    (rs.foldl ParIterResult.add acc).histogram.sum =
      acc.histogram.sum +
        rs.countP (fun r => decide (r.iterations < acc.histogram.length)) := by
  induction rs generalizing acc with
  | nil => simp
  | cons r rs ih =>
    rw [List.foldl_cons, ih, add_histogram_length, add_histogram_sum, List.countP_cons]
    simp only [decide_eq_true_eq]
    omega

open MandelbrotSet in
/-- C8: after a full reduction pass over the pixels of a view box,
`sum(histogram) ≤ pixel_count`, with equality exactly when every per-point
result stays strictly below `max_iterations`; `add` counts a result if and
only if its iteration count is strictly below the histogram length. -/
theorem histogram_sum_invariant (it : MandelIterator) (vb : ViewBox) :
    (pass_reduce it vb).histogram.sum ≤ vb.pixel_count ∧
    ((pass_reduce it vb).histogram.sum = vb.pixel_count ↔
      ∀ r ∈ pass_results it vb, r.iterations < it.max_iterations) ∧
    (∀ (a : ParIterResult) (r : IterationResult),
      (a.add r).histogram.sum =
        a.histogram.sum + if r.iterations < a.histogram.length then 1 else 0) := by
  have hlen : (ParIterResult.new it.max_iterations).histogram.length = it.max_iterations := by
    simp [ParIterResult.new]
  have hsum0 : (ParIterResult.new it.max_iterations).histogram.sum = 0 := by
    simp [ParIterResult.new]
  have hres : (pass_reduce it vb).histogram.sum =
      (pass_results it vb).countP (fun r => decide (r.iterations < it.max_iterations)) := by
    rw [pass_reduce, foldl_add_histogram_sum, hsum0]
    simp only [hlen, Nat.zero_add]
  have hlen2 : (pass_results it vb).length = vb.pixel_count := by
    rw [pass_results, List.length_map, List.length_range]
  refine ⟨?_, ?_, add_histogram_sum⟩
  · rw [hres, ← hlen2]
    exact List.countP_le_length _
  · rw [hres, ← hlen2, List.countP_eq_length]
    simp only [decide_eq_true_eq]

/-- Witness for C8: the counted-iff-below-length equation of `add` at a
concrete accumulator and result. -/
theorem histogram_sum_invariant_witness :
    ((ParIterResult.new 2).add ⟨1, 0, 5⟩).histogram.sum =
      (ParIterResult.new 2).histogram.sum +
        if (1 : ℕ) < (ParIterResult.new 2).histogram.length then 1 else 0 :=
  (histogram_sum_invariant ⟨2, 4⟩ ViewBox.zero).2.2 (ParIterResult.new 2) ⟨1, 0, 5⟩

/-! ## Claim C1: idempotence of `compute_drawables` -/

/-- `from_center_size` stores the requested plane-box center. -/
theorem from_center_size_box_center (a b : Vec2) (c d : DVec2) :
    (ViewBox.from_center_size a b c d).box_center = c := rfl

/-- `from_center_size` stores the requested plane-box size. -/
theorem from_center_size_box_size (a b : Vec2) (c d : DVec2) :
    (ViewBox.from_center_size a b c d).box_size = d := rfl

open MandelbrotSet in
/-- `compute_drawables` leaves the navigation/color state untouched and
records the frame's view box, colors and iteration budget as the new
last-known values. -/
theorem compute_drawables_static (s : MandelbrotSet) (dest size : Vec2) :
    (compute_drawables s dest size).box_center = s.box_center ∧
    (compute_drawables s dest size).box_size = s.box_size ∧
    (compute_drawables s dest size).max_iterations = s.max_iterations ∧
    (compute_drawables s dest size).out_color = s.out_color ∧
    (compute_drawables s dest size).almost_in_color = s.almost_in_color ∧
    (compute_drawables s dest size).escape_radius2 = s.escape_radius2 ∧
    (compute_drawables s dest size).last_view_box =
      ViewBox.from_center_size dest size s.box_center s.box_size ∧
    (compute_drawables s dest size).last_colors = (s.out_color, s.almost_in_color) ∧
    (compute_drawables s dest size).last_max_iterations = s.max_iterations := by
  unfold MandelbrotSet.compute_drawables MandelbrotSet.record_last_values
  dsimp only
  cases h1 : s.need_recreate_pixel_cache
      (ViewBox.from_center_size dest size s.box_center s.box_size) <;>
    cases h2 : s.need_recompute_iterations
      (ViewBox.from_center_size dest size s.box_center s.box_size) <;>
    cases h3 : s.need_recompute_image
      (ViewBox.from_center_size dest size s.box_center s.box_size) <;>
    simp [h1, h2, h3]

open MandelbrotSet in
/-- Immediately after a frame, every dirty check against the same
destination and size reports clean. -/
theorem compute_drawables_clean_second_call (s : MandelbrotSet) (dest size : Vec2) :
    need_recreate_pixel_cache (compute_drawables s dest size)
      (ViewBox.from_center_size dest size (compute_drawables s dest size).box_center
        (compute_drawables s dest size).box_size) = false ∧
    need_recompute_iterations (compute_drawables s dest size)
      (ViewBox.from_center_size dest size (compute_drawables s dest size).box_center
        (compute_drawables s dest size).box_size) = false ∧
    need_recompute_image (compute_drawables s dest size)
      (ViewBox.from_center_size dest size (compute_drawables s dest size).box_center
        (compute_drawables s dest size).box_size) = false := by
  obtain ⟨hbc, hbs, hmi, hoc, hac, her, hlvb, hlc, hlm⟩ := compute_drawables_static s dest size
  have hvb : ViewBox.from_center_size dest size (compute_drawables s dest size).box_center
      (compute_drawables s dest size).box_size =
      ViewBox.from_center_size dest size s.box_center s.box_size := by
    rw [hbc, hbs]
  have h1 : need_recreate_pixel_cache (compute_drawables s dest size)
      (ViewBox.from_center_size dest size (compute_drawables s dest size).box_center
        (compute_drawables s dest size).box_size) = false := by
    rw [hvb]
    unfold need_recreate_pixel_cache ViewBox.size_changed
    rw [hlvb]
    simp
  have h2 : need_recompute_iterations (compute_drawables s dest size)
      (ViewBox.from_center_size dest size (compute_drawables s dest size).box_center
        (compute_drawables s dest size).box_size) = false := by
    unfold need_recompute_iterations
    rw [h1, hlvb, from_center_size_box_center, from_center_size_box_size, hbc, hbs, hmi, hlm]
    simp
  have h3 : need_recompute_image (compute_drawables s dest size)
      (ViewBox.from_center_size dest size (compute_drawables s dest size).box_center
        (compute_drawables s dest size).box_size) = false := by
    unfold need_recompute_image color_changed
    rw [h2, hlc, hoc, hac]
    simp
  exact ⟨h1, h2, h3⟩

open MandelbrotSet in
/-- C1: calling `compute_drawables` a second time with the identical
destination and size and no intervening mutation finds every dirty check
clean (pixel cache, iterations, image) and leaves the cached
iteration counts, histogram and pixel buffer unchanged. -/
theorem compute_drawables_idempotent (s : MandelbrotSet) (dest size : Vec2) :
    need_recreate_pixel_cache (compute_drawables s dest size)
      (ViewBox.from_center_size dest size (compute_drawables s dest size).box_center
        (compute_drawables s dest size).box_size) = false ∧
    need_recompute_iterations (compute_drawables s dest size)
      (ViewBox.from_center_size dest size (compute_drawables s dest size).box_center
        (compute_drawables s dest size).box_size) = false ∧
    need_recompute_image (compute_drawables s dest size)
      (ViewBox.from_center_size dest size (compute_drawables s dest size).box_center
        (compute_drawables s dest size).box_size) = false ∧
    (compute_drawables (compute_drawables s dest size) dest size).iteration_counts =
      (compute_drawables s dest size).iteration_counts ∧
    (compute_drawables (compute_drawables s dest size) dest size).histogram =
      (compute_drawables s dest size).histogram ∧
    (compute_drawables (compute_drawables s dest size) dest size).pixels =
      (compute_drawables s dest size).pixels := by
  obtain ⟨h1, h2, h3⟩ := compute_drawables_clean_second_call s dest size
  have hsecond : compute_drawables (compute_drawables s dest size) dest size =
      record_last_values (compute_drawables s dest size)
        (ViewBox.from_center_size dest size (compute_drawables s dest size).box_center
          (compute_drawables s dest size).box_size) := by
    conv_lhs => rw [compute_drawables]
    rw [h1, h2, h3]
    simp
  exact ⟨h1, h2, h3, by rw [hsecond]; rfl, by rw [hsecond]; rfl, by rw [hsecond]; rfl⟩

/-! ## Claim C2: a pure color change skips the iteration pass -/

open MandelbrotSet in
/-- A frame whose only dirty layer is the image re-runs just the color pass
over the cached iteration counts. -/
theorem compute_drawables_image_pass_only (t : MandelbrotSet) (dest size : Vec2)
    (h1 : need_recreate_pixel_cache t
      (ViewBox.from_center_size dest size t.box_center t.box_size) = false)
    (h2 : need_recompute_iterations t
      (ViewBox.from_center_size dest size t.box_center t.box_size) = false)
    (h3 : need_recompute_image t
      (ViewBox.from_center_size dest size t.box_center t.box_size) = true) :
    compute_drawables t dest size =
      record_last_values
        { t with pixels := (t.iteration_counts.map
            (pixel_color t.out_color t.almost_in_color t.max_iterations)) }
        (ViewBox.from_center_size dest size t.box_center t.box_size) := by
  conv_lhs => rw [compute_drawables]
  rw [h1, h2, h3]
  simp

open MandelbrotSet in
/-- C2 (amended): if after a frame only the almost-in (or out) picked color
changes — the new pair `(co', ca')` differs from the recorded pair in at
least one component — and `compute_drawables` runs again with the same
destination, size, box and iteration budget, the iteration pass is skipped
(`iteration_counts` and `histogram` unchanged) while the image-dirty check
reports true and the pixel buffer is rebuilt by the color pass from the
cached iteration counts with the new palette. -/
theorem color_change_skips_iterations (s : MandelbrotSet) (dest size : Vec2) (co' ca' : Color)
    (hne : co' ≠ (compute_drawables s dest size).out_color ∨
      ca' ≠ (compute_drawables s dest size).almost_in_color) :
    need_recompute_iterations
      {compute_drawables s dest size with out_color := co', almost_in_color := ca'}
      (ViewBox.from_center_size dest size (compute_drawables s dest size).box_center
        (compute_drawables s dest size).box_size) = false ∧
    need_recompute_image
      {compute_drawables s dest size with out_color := co', almost_in_color := ca'}
      (ViewBox.from_center_size dest size (compute_drawables s dest size).box_center
        (compute_drawables s dest size).box_size) = true ∧
    (compute_drawables
        {compute_drawables s dest size with out_color := co', almost_in_color := ca'}
        dest size).iteration_counts = (compute_drawables s dest size).iteration_counts ∧
    (compute_drawables
        {compute_drawables s dest size with out_color := co', almost_in_color := ca'}
        dest size).histogram = (compute_drawables s dest size).histogram ∧
    (compute_drawables
        {compute_drawables s dest size with out_color := co', almost_in_color := ca'}
        dest size).pixels =
      (compute_drawables s dest size).iteration_counts.map
        (pixel_color co' ca' (compute_drawables s dest size).max_iterations) := by
  obtain ⟨h1, h2, h3⟩ := compute_drawables_clean_second_call s dest size
  obtain ⟨hbc, hbs, hmi, hoc, hac, her, hlvb, hlc, hlm⟩ := compute_drawables_static s dest size
  have h1' : need_recreate_pixel_cache
      {compute_drawables s dest size with out_color := co', almost_in_color := ca'}
      (ViewBox.from_center_size dest size (compute_drawables s dest size).box_center
        (compute_drawables s dest size).box_size) = false := h1
  have h2' : need_recompute_iterations
      {compute_drawables s dest size with out_color := co', almost_in_color := ca'}
      (ViewBox.from_center_size dest size (compute_drawables s dest size).box_center
        (compute_drawables s dest size).box_size) = false := h2
  have himg : need_recompute_image
      {compute_drawables s dest size with out_color := co', almost_in_color := ca'}
      (ViewBox.from_center_size dest size (compute_drawables s dest size).box_center
        (compute_drawables s dest size).box_size) = true := by
    unfold need_recompute_image color_changed
    rw [h2']
    simp only [Bool.false_or, Bool.or_eq_true, decide_eq_true_eq]
    rcases hne with hco | hca
    · left
      show ¬ (compute_drawables s dest size).last_colors.1 = co'
      rw [hlc]
      show ¬ s.out_color = co'
      intro h
      exact hco (hoc.trans h).symm
    · right
      show ¬ (compute_drawables s dest size).last_colors.2 = ca'
      rw [hlc]
      show ¬ s.almost_in_color = ca'
      intro h
      exact hca (hac.trans h).symm
  have hsecond := compute_drawables_image_pass_only
    {compute_drawables s dest size with out_color := co', almost_in_color := ca'}
    dest size h1' h2' himg
  refine ⟨h2', himg, ?_, ?_, ?_⟩
  · rw [hsecond]
    rfl
  · rw [hsecond]
    rfl
  · rw [hsecond]
    rfl

open MandelbrotSet MandelIterator in
/-- The first frame on `sample_state` at destination `(1/2, 1/2)` with a 1x1
size: the single pixel maps to the plane point `(-1/2, -1/2)`, which the
cardioid shortcut classifies as inside, so its cached iteration count is the
full budget and the color pass paints the fixed inside color black. -/
theorem sample_state_first_call :
    (compute_drawables sample_state ⟨1/2, 1/2⟩ ⟨1, 1⟩).iteration_counts =
      [((100 : ℕ) : ℝ) + 0] ∧
    (compute_drawables sample_state ⟨1/2, 1/2⟩ ⟨1, 1⟩).pixels =
      [((0 : ℝ), (0 : ℝ), (0 : ℝ))] := by
  have hvb : ViewBox.from_center_size ⟨1/2, 1/2⟩ ⟨1, 1⟩ sample_state.box_center
      sample_state.box_size =
      ⟨⟨0, 0⟩, ⟨1/2, 1/2⟩, ⟨1, 1⟩, ⟨0, 0⟩, ⟨1, 1⟩, 1, 1⟩ := by
    show ViewBox.from_center_size ⟨1/2, 1/2⟩ ⟨1, 1⟩ ⟨0, 0⟩ ⟨1, 1⟩ = _
    unfold ViewBox.from_center_size
    norm_num [roundAway]
  have hb : need_recreate_pixel_cache sample_state
      (ViewBox.from_center_size ⟨1/2, 1/2⟩ ⟨1, 1⟩ sample_state.box_center
        sample_state.box_size) = true := by
    rw [hvb]
    show (ViewBox.zero.size_changed _) = true
    unfold ViewBox.zero ViewBox.from_center_size ViewBox.size_changed
    norm_num [roundAway]
  have hc : need_recompute_iterations sample_state
      (ViewBox.from_center_size ⟨1/2, 1/2⟩ ⟨1, 1⟩ sample_state.box_center
        sample_state.box_size) = true := by
    unfold need_recompute_iterations
    rw [hb]
    simp
  have hd : need_recompute_image sample_state
      (ViewBox.from_center_size ⟨1/2, 1/2⟩ ⟨1, 1⟩ sample_state.box_center
        sample_state.box_size) = true := by
    unfold need_recompute_image
    rw [hc]
    simp
  have hmp : (ViewBox.mandel_point_from_index ⟨⟨0, 0⟩, ⟨1/2, 1/2⟩, ⟨1, 1⟩, ⟨0, 0⟩, ⟨1, 1⟩, 1, 1⟩ 0) =
      ⟨-1/2, -1/2⟩ := by
    unfold ViewBox.mandel_point_from_index ViewBox.mandel_point
    norm_num
  have hiter : MandelIterator.iter_to_divergence ⟨100, 4⟩ ⟨-1/2, -1/2⟩ = ⟨100, 0, 0⟩ :=
    iter_to_divergence_of_shortcut ⟨100, 4⟩ ⟨-1/2, -1/2⟩
      (Or.inr (by norm_num [is_part_of_bulb_or_main_cardioid]))
  have hsi : sample_state.iterator = ⟨100, 4⟩ := rfl
  have hpr : pass_results sample_state.iterator
      ⟨⟨0, 0⟩, ⟨1/2, 1/2⟩, ⟨1, 1⟩, ⟨0, 0⟩, ⟨1, 1⟩, 1, 1⟩ = [⟨100, 0, 0⟩] := by
    unfold pass_results
    rw [hsi]
    have hr1 : List.range 1 = [0] := rfl
    show List.map _ (List.range 1) = _
    rw [hr1, List.map_cons, List.map_nil, hmp, hiter]
  constructor
  · conv_lhs => rw [compute_drawables]
    rw [hb, hc]
    dsimp only
    rw [hvb, hpr]
    simp only [record_last_values]
    split <;> norm_num
  · conv_lhs => rw [compute_drawables]
    rw [hb, hc, hd]
    dsimp only
    rw [hvb, hpr]
    simp only [record_last_values, List.map_cons, List.map_nil]
    show [pixel_color sample_state.out_color sample_state.almost_in_color
      sample_state.max_iterations (((100 : ℕ) : ℝ) + 0)] = _
    unfold pixel_color
    rw [if_pos (by norm_num [sample_state])]

open MandelbrotSet MandelIterator in
/-- C2, failure of the unamended claim: on `sample_state`'s 1x1 all-inside
frame, changing only the almost-in color from green to blue and re-invoking
`compute_drawables` leaves the pixel buffer identical (the single pixel is
the fixed inside color black under either palette), so a pure color change
need not change the output pixels. -/
theorem color_change_pixels_unchanged_counterexample :
    ((⟨0, 0, 1, 1⟩ : Color) ≠
      (compute_drawables sample_state ⟨1/2, 1/2⟩ ⟨1, 1⟩).almost_in_color) ∧
    (compute_drawables
        {compute_drawables sample_state ⟨1/2, 1/2⟩ ⟨1, 1⟩ with almost_in_color := ⟨0, 0, 1, 1⟩}
        ⟨1/2, 1/2⟩ ⟨1, 1⟩).pixels =
      (compute_drawables sample_state ⟨1/2, 1/2⟩ ⟨1, 1⟩).pixels := by
  obtain ⟨hcounts, hpix⟩ := sample_state_first_call
  obtain ⟨hbc, hbs, hmi, hoc, hac, her, hlvb, hlc, hlm⟩ :=
    compute_drawables_static sample_state ⟨1/2, 1/2⟩ ⟨1, 1⟩
  have hne : (⟨0, 0, 1, 1⟩ : Color) ≠
      (compute_drawables sample_state ⟨1/2, 1/2⟩ ⟨1, 1⟩).almost_in_color := by
    rw [hac]
    show (⟨0, 0, 1, 1⟩ : Color) ≠ ⟨0, 1, 0, 1⟩
    intro h
    injection h with h1 h2 h3 h4
    exact absurd h2 (by norm_num)
  have hne2 : (compute_drawables sample_state ⟨1/2, 1/2⟩ ⟨1, 1⟩).almost_in_color ≠
      (⟨0, 0, 1, 1⟩ : Color) := fun h => hne h.symm
  obtain ⟨h1, h2, h3⟩ := compute_drawables_clean_second_call sample_state ⟨1/2, 1/2⟩ ⟨1, 1⟩
  have h1' : need_recreate_pixel_cache
      {compute_drawables sample_state ⟨1/2, 1/2⟩ ⟨1, 1⟩ with almost_in_color := ⟨0, 0, 1, 1⟩}
      (ViewBox.from_center_size ⟨1/2, 1/2⟩ ⟨1, 1⟩
        (compute_drawables sample_state ⟨1/2, 1/2⟩ ⟨1, 1⟩).box_center
        (compute_drawables sample_state ⟨1/2, 1/2⟩ ⟨1, 1⟩).box_size) = false := h1
  have h2' : need_recompute_iterations
      {compute_drawables sample_state ⟨1/2, 1/2⟩ ⟨1, 1⟩ with almost_in_color := ⟨0, 0, 1, 1⟩}
      (ViewBox.from_center_size ⟨1/2, 1/2⟩ ⟨1, 1⟩
        (compute_drawables sample_state ⟨1/2, 1/2⟩ ⟨1, 1⟩).box_center
        (compute_drawables sample_state ⟨1/2, 1/2⟩ ⟨1, 1⟩).box_size) = false := h2
  have himg : need_recompute_image
      {compute_drawables sample_state ⟨1/2, 1/2⟩ ⟨1, 1⟩ with almost_in_color := ⟨0, 0, 1, 1⟩}
      (ViewBox.from_center_size ⟨1/2, 1/2⟩ ⟨1, 1⟩
        (compute_drawables sample_state ⟨1/2, 1/2⟩ ⟨1, 1⟩).box_center
        (compute_drawables sample_state ⟨1/2, 1/2⟩ ⟨1, 1⟩).box_size) = true := by
    unfold need_recompute_image color_changed
    rw [h2']
    simp only [Bool.false_or, Bool.or_eq_true, decide_eq_true_eq]
    right
    show ¬ (compute_drawables sample_state ⟨1/2, 1/2⟩ ⟨1, 1⟩).last_colors.2 = ⟨0, 0, 1, 1⟩
    rw [hlc]
    show ¬ sample_state.almost_in_color = ⟨0, 0, 1, 1⟩
    intro h
    exact hne2 (by rw [hac]; exact h)
  have hsecond := compute_drawables_image_pass_only
    {compute_drawables sample_state ⟨1/2, 1/2⟩ ⟨1, 1⟩ with almost_in_color := ⟨0, 0, 1, 1⟩}
    ⟨1/2, 1/2⟩ ⟨1, 1⟩ h1' h2' himg
  refine ⟨hne, ?_⟩
  rw [hsecond]
  show (compute_drawables sample_state ⟨1/2, 1/2⟩ ⟨1, 1⟩).iteration_counts.map
      (pixel_color (compute_drawables sample_state ⟨1/2, 1/2⟩ ⟨1, 1⟩).out_color ⟨0, 0, 1, 1⟩
        (compute_drawables sample_state ⟨1/2, 1/2⟩ ⟨1, 1⟩).max_iterations) =
    (compute_drawables sample_state ⟨1/2, 1/2⟩ ⟨1, 1⟩).pixels
  rw [hcounts, hpix, hmi]
  show [pixel_color (compute_drawables sample_state ⟨1/2, 1/2⟩ ⟨1, 1⟩).out_color ⟨0, 0, 1, 1⟩
      100 (((100 : ℕ) : ℝ) + 0)] = [((0 : ℝ), (0 : ℝ), (0 : ℝ))]
  unfold pixel_color
  rw [if_pos (by norm_num)]

open MandelbrotSet in
/-- Witness for C2 (amended): on `sample_state`'s recorded frame, keep the
out color red and change only the almost-in color from green to blue. -/
theorem color_change_skips_iterations_witness :
    need_recompute_iterations
      {compute_drawables sample_state ⟨1/2, 1/2⟩ ⟨1, 1⟩ with
        out_color := ⟨1, 0, 0, 1⟩, almost_in_color := ⟨0, 0, 1, 1⟩}
      (ViewBox.from_center_size ⟨1/2, 1/2⟩ ⟨1, 1⟩
        (compute_drawables sample_state ⟨1/2, 1/2⟩ ⟨1, 1⟩).box_center
        (compute_drawables sample_state ⟨1/2, 1/2⟩ ⟨1, 1⟩).box_size) = false ∧
    need_recompute_image
      {compute_drawables sample_state ⟨1/2, 1/2⟩ ⟨1, 1⟩ with
        out_color := ⟨1, 0, 0, 1⟩, almost_in_color := ⟨0, 0, 1, 1⟩}
      (ViewBox.from_center_size ⟨1/2, 1/2⟩ ⟨1, 1⟩
        (compute_drawables sample_state ⟨1/2, 1/2⟩ ⟨1, 1⟩).box_center
        (compute_drawables sample_state ⟨1/2, 1/2⟩ ⟨1, 1⟩).box_size) = true ∧
    (compute_drawables
        {compute_drawables sample_state ⟨1/2, 1/2⟩ ⟨1, 1⟩ with
          out_color := ⟨1, 0, 0, 1⟩, almost_in_color := ⟨0, 0, 1, 1⟩}
        ⟨1/2, 1/2⟩ ⟨1, 1⟩).iteration_counts =
      (compute_drawables sample_state ⟨1/2, 1/2⟩ ⟨1, 1⟩).iteration_counts ∧
    (compute_drawables
        {compute_drawables sample_state ⟨1/2, 1/2⟩ ⟨1, 1⟩ with
          out_color := ⟨1, 0, 0, 1⟩, almost_in_color := ⟨0, 0, 1, 1⟩}
        ⟨1/2, 1/2⟩ ⟨1, 1⟩).histogram =
      (compute_drawables sample_state ⟨1/2, 1/2⟩ ⟨1, 1⟩).histogram ∧
    (compute_drawables
        {compute_drawables sample_state ⟨1/2, 1/2⟩ ⟨1, 1⟩ with
          out_color := ⟨1, 0, 0, 1⟩, almost_in_color := ⟨0, 0, 1, 1⟩}
        ⟨1/2, 1/2⟩ ⟨1, 1⟩).pixels =
      (compute_drawables sample_state ⟨1/2, 1/2⟩ ⟨1, 1⟩).iteration_counts.map
        (pixel_color ⟨1, 0, 0, 1⟩ ⟨0, 0, 1, 1⟩
          (compute_drawables sample_state ⟨1/2, 1/2⟩ ⟨1, 1⟩).max_iterations) := by
  apply color_change_skips_iterations sample_state ⟨1/2, 1/2⟩ ⟨1, 1⟩ ⟨1, 0, 0, 1⟩ ⟨0, 0, 1, 1⟩
  right
  have hac := (compute_drawables_static sample_state ⟨1/2, 1/2⟩ ⟨1, 1⟩).2.2.2.2.1
  rw [hac]
  show (⟨0, 0, 1, 1⟩ : Color) ≠ ⟨0, 1, 0, 1⟩
  intro h
  injection h with h1 h2 h3 h4
  exact absurd h2 (by norm_num)

end RCurves
